import Mathlib

/-!
Verification of the diagnostic-lifecycle engine of a gedit shellcheck plugin.

The definitions below are shallow embeddings of the Python source:
- the severity enumeration and its ordering, from the Level enum in shellcheck/init;
- the range merger, tooltip previews and replacement-range normalization,
  from shellcheck/gutterrenderer.py;
- the debounce-delay computation, the tool-output parsing step and the
  scheduler transitions, from shellcheck/init.

Machine integers are modelled as Nat or Int; GLib event sources are modelled
as an explicit allocator state; the buffer text is a list of characters.
-/

/-! ## Severity enumeration (class Level) -/

/-- The five members of the Level enum, in declaration order:
NOTE, INFO, WARN, ERROR, UNKNOWN. -/
inductive Level where
  | NOTE
  | INFO
  | WARN
  | ERROR
  | UNKNOWN
deriving DecidableEq, Repr, Fintype

/-- Position of a member in the declaration order, as used by
the comparison method of Level, which compares list indices of
the members list. -/
def Level.index : Level → Nat
  | .NOTE => 0
  | .INFO => 1
  | .WARN => 2
  | .ERROR => 3
  | .UNKNOWN => 4

/-- The string code of each member (first component of the enum value). -/
def Level.code : Level → String
  | .NOTE => "style"
  | .INFO => "info"
  | .WARN => "warning"
  | .ERROR => "error"
  | .UNKNOWN => "?"

/-- The color of each member (second component of the enum value). -/
def Level.color : Level → String
  | .NOTE => "#007FFF"
  | .INFO => "#813d9c"
  | .WARN => "#f5c200"
  | .ERROR => "#c01c28"
  | .UNKNOWN => "#c64600"

/-- The strict comparison of Level: index in the members list, as
implemented by the lt dunder method (total ordering is derived from it). -/
def Level.ltb (a b : Level) : Bool := a.index < b.index

/-- The members list of the Level enum, in declaration order. -/
def Level.members : List Level := [.NOTE, .INFO, .WARN, .ERROR, .UNKNOWN]

/-- Level.by_code: scan the members in order, return the first whose code
matches, falling back to UNKNOWN. -/
def Level.by_code (c : String) : Level :=
  match Level.members.find? (fun l => l.code == c) with
  | some l => l
  | none => .UNKNOWN

/-- The builtin max over a non-empty iterable of Level values, as used by
do_draw to pick the worst severity of the diagnostics covering one line:
keep the current value unless the next item compares strictly greater. -/
def worstLevel : List Level → Option Level
  | [] => none
  | x :: xs => some (xs.foldl (fun cur m => if cur.ltb m then m else cur) x)

/-! ## Range merger (GutterRenderer.merge_ranges) -/

/-- Lexicographic order on integer pairs: the order the builtin sorted
uses on 2-tuples. -/
def rle (a b : Int × Int) : Prop := a.1 < b.1 ∨ (a.1 = b.1 ∧ a.2 ≤ b.2)

instance : DecidableRel rle := fun a b => by
  unfold rle; exact inferInstance

instance : IsTotal (Int × Int) rle := by
  constructor; intro a b; unfold rle; omega

instance : IsTrans (Int × Int) rle := by
  constructor; intro a b c hab hbc; unfold rle at hab hbc ⊢; omega

/-- sorted(ranges): sort the list of ranges lexicographically. -/
def sortRanges (l : List (Int × Int)) : List (Int × Int) := l.insertionSort rle

/-- One iteration of the merge loop. The accumulator is kept reversed, so
its head is the last element of the Python new_ranges list. The running
range is extended exactly when the candidate starts at or after its start,
starts at or before its end, and ends at or after its end; otherwise the
candidate is appended. -/
def mergeInto (acc : List (Int × Int)) (r : Int × Int) : List (Int × Int) :=
  match acc with
  | [] => [r]
  | last :: rest =>
    if r.1 ≥ last.1 ∧ r.1 ≤ last.2 ∧ r.2 ≥ last.2 then
      (last.1, r.2) :: rest
    else
      r :: last :: rest

/-- GutterRenderer.merge_ranges: sort the ranges, seed the output with the
first sorted range, then fold the merge loop over all sorted ranges
(including the first, which merges with itself as a no-op). Indexing the
empty sorted list raises IndexError, modelled as none. -/
def merge_ranges (ranges : List (Int × Int)) : Option (List (Int × Int)) :=
  match sortRanges ranges with
  | [] => none
  | r0 :: rest => some (((r0 :: rest).foldl mergeInto [r0]).reverse)

/-- A point is covered by a range list when some listed closed interval
contains it. -/
def covers (l : List (Int × Int)) (p : Int) : Prop := ∃ r ∈ l, r.1 ≤ p ∧ p ≤ r.2

instance (l : List (Int × Int)) (p : Int) : Decidable (covers l p) := by
  unfold covers; exact inferInstance

/-- Output ranges listed in nondecreasing order of their start offsets. -/
def StartSorted (l : List (Int × Int)) : Prop :=
  List.Chain' (fun a b : Int × Int => a.1 ≤ b.1) l

/-- Strict separation: every range ends strictly before the next begins. -/
def Separated (l : List (Int × Int)) : Prop :=
  List.Chain' (fun a b : Int × Int => a.2 < b.1) l


/-! ## Debounce delay (ShellCheckViewActivatable.update) -/

/-- The debounce delay in milliseconds computed by update from the buffer
line count: floor-divide the line count by 2000, add one, multiply by
200, cap at 10000. -/
def update_delay (n_lines : Nat) : Nat := min 10000 (200 * (n_lines / 2000 + 1))

/-! ## Helper lemmas about the range merger -/

theorem covers_cons (x : Int × Int) (xs : List (Int × Int)) (p : Int) :
    covers (x :: xs) p ↔ (x.1 ≤ p ∧ p ≤ x.2) ∨ covers xs p := by
  simp [covers]

theorem covers_nil (p : Int) : covers [] p ↔ False := by
  simp [covers]

theorem covers_mergeInto (acc : List (Int × Int)) (r : Int × Int) (p : Int) :
    covers (mergeInto acc r) p ↔ covers acc p ∨ (r.1 ≤ p ∧ p ≤ r.2) := by
  match acc with
  | [] => simp [mergeInto, covers]
  | last :: rest =>
    simp only [mergeInto]
    split
    · rename_i h
      simp only [covers_cons]
      constructor
      · rintro (⟨ha, hb⟩ | hc)
        · by_cases hp : p ≤ last.2
          · exact Or.inl (Or.inl ⟨ha, hp⟩)
          · exact Or.inr ⟨by simp at hp ⊢; omega, hb⟩
        · exact Or.inl (Or.inr hc)
      · rintro ((⟨ha, hb⟩ | hc) | ⟨ha, hb⟩)
        · exact Or.inl ⟨ha, by omega⟩
        · exact Or.inr hc
        · exact Or.inl ⟨by omega, hb⟩
    · simp only [covers_cons]
      tauto

theorem covers_foldl_mergeInto (l : List (Int × Int)) (acc : List (Int × Int)) (p : Int) :
    covers (l.foldl mergeInto acc) p ↔ covers acc p ∨ covers l p := by
  induction l generalizing acc with
  | nil => simp [covers]
  | cons x xs ih =>
    simp only [List.foldl_cons, ih, covers_mergeInto, covers_cons]
    tauto

theorem covers_perm {l l' : List (Int × Int)} (h : l.Perm l') (p : Int) :
    covers l p ↔ covers l' p := by
  unfold covers
  constructor
  · rintro ⟨r, hr, hp⟩; exact ⟨r, h.mem_iff.mp hr, hp⟩
  · rintro ⟨r, hr, hp⟩; exact ⟨r, h.mem_iff.mpr hr, hp⟩

theorem covers_reverse (l : List (Int × Int)) (p : Int) :
    covers l.reverse p ↔ covers l p :=
  covers_perm (List.reverse_perm l) p

theorem merge_ranges_covers {l out : List (Int × Int)} (h : merge_ranges l = some out)
    (p : Int) : covers out p ↔ covers l p := by
  unfold merge_ranges at h
  split at h
  · exact absurd h (by simp)
  · rename_i r0 rest hs
    injection h with h
    subst h
    have hperm : (sortRanges l).Perm l := List.perm_insertionSort rle l
    rw [hs] at hperm
    rw [covers_reverse, covers_foldl_mergeInto, ← covers_perm hperm p]
    simp only [covers_cons, covers_nil, or_false]
    tauto

theorem chain_foldl_mergeInto :
    ∀ (l : List (Int × Int)) (last : Int × Int) (rest : List (Int × Int)),
    List.Pairwise (fun a b : Int × Int => a.1 ≤ b.1) l →
    (∀ x ∈ l, last.1 ≤ x.1) →
    List.Chain' (fun a b : Int × Int => b.1 ≤ a.1) (last :: rest) →
    List.Chain' (fun a b : Int × Int => b.1 ≤ a.1) (l.foldl mergeInto (last :: rest))
  | [], _, _, _, _, hc => hc
  | x :: xs, last, rest, hp, hb, hc => by
    simp only [List.foldl_cons, mergeInto]
    split
    · refine chain_foldl_mergeInto xs (last.1, x.2) rest hp.of_cons ?_ ?_
      · intro y hy
        exact hb y (List.mem_cons_of_mem x hy)
      · cases rest with
        | nil => exact List.chain'_singleton _
        | cons b rest2 =>
          obtain ⟨h1, h2⟩ := List.chain'_cons.mp hc
          exact List.chain'_cons.mpr ⟨h1, h2⟩
    · refine chain_foldl_mergeInto xs x (last :: rest) hp.of_cons ?_ ?_
      · intro y hy
        exact List.rel_of_pairwise_cons hp hy
      · exact List.chain'_cons.mpr ⟨hb x (List.mem_cons_self x xs), hc⟩

theorem merge_ranges_startSorted {l out : List (Int × Int)}
    (h : merge_ranges l = some out) : StartSorted out := by
  unfold merge_ranges at h
  split at h
  · exact absurd h (by simp)
  · rename_i r0 rest hs
    injection h with h
    subst h
    have hsorted : List.Sorted rle (sortRanges l) := List.sorted_insertionSort rle l
    rw [hs] at hsorted
    have hp : List.Pairwise (fun a b : Int × Int => a.1 ≤ b.1) (r0 :: rest) := by
      refine hsorted.imp ?_
      intro a b hab
      rcases hab with h1 | ⟨h1, h2⟩ <;> omega
    unfold StartSorted
    rw [List.chain'_reverse]
    refine chain_foldl_mergeInto (r0 :: rest) r0 [] hp ?_ (List.chain'_singleton _)
    intro x hx
    rcases List.mem_cons.mp hx with rfl | hx2
    · exact le_refl _
    · exact List.rel_of_pairwise_cons hp hx2

theorem foldl_mergeInto_ne_nil :
    ∀ (l acc : List (Int × Int)), acc ≠ [] → l.foldl mergeInto acc ≠ []
  | [], _, h => h
  | x :: xs, acc, _ => by
    apply foldl_mergeInto_ne_nil xs
    cases acc with
    | nil => simp [mergeInto]
    | cons last rest =>
      intro hcontra
      simp only [mergeInto] at hcontra
      split at hcontra <;> simp at hcontra

theorem merge_ranges_ne_nil {l out : List (Int × Int)}
    (h : merge_ranges l = some out) : out ≠ [] := by
  unfold merge_ranges at h
  split at h
  · exact absurd h (by simp)
  · rename_i r0 rest hs
    injection h with h
    subst h
    intro hnil
    rw [List.reverse_eq_nil_iff] at hnil
    exact foldl_mergeInto_ne_nil (r0 :: rest) [r0] (by simp) hnil

theorem pairwise_sep_of_chain :
    ∀ (l : List (Int × Int)), List.Chain' (fun a b : Int × Int => a.2 < b.1) l →
    (∀ r ∈ l, r.1 ≤ r.2) → List.Pairwise (fun a b : Int × Int => a.2 < b.1) l
  | [], _, _ => .nil
  | [_], _, _ => .cons (by simp) .nil
  | a :: b :: l, hc, hwf => by
    obtain ⟨hab, hc'⟩ := List.chain'_cons.mp hc
    have ih := pairwise_sep_of_chain (b :: l) hc'
      (fun r hr => hwf r (List.mem_cons_of_mem a hr))
    refine ih.cons ?_
    intro c hc2
    rcases List.mem_cons.mp hc2 with rfl | hcl
    · exact hab
    · have hbc := List.rel_of_pairwise_cons ih hcl
      have hbwf : b.1 ≤ b.2 := hwf b (List.mem_cons_of_mem a (List.mem_cons_self b l))
      omega

theorem foldl_mergeInto_separated :
    ∀ (l : List (Int × Int)) (last : Int × Int) (rest : List (Int × Int)),
    List.Chain' (fun a b : Int × Int => a.2 < b.1) (last :: l) →
    l.foldl mergeInto (last :: rest) = l.reverse ++ last :: rest
  | [], _, _, _ => by simp
  | x :: xs, last, rest, hc => by
    obtain ⟨hlt, hc'⟩ := List.chain'_cons.mp hc
    simp only [List.foldl_cons, mergeInto]
    rw [if_neg (by omega)]
    rw [foldl_mergeInto_separated xs x (last :: rest) hc']
    simp

theorem merge_ranges_of_separated (out : List (Int × Int)) (hne : out ≠ [])
    (hsep : Separated out) (hwf : ∀ r ∈ out, r.1 ≤ r.2) :
    merge_ranges out = some out := by
  have hsorted : List.Sorted rle out := by
    refine (pairwise_sep_of_chain out hsep hwf).imp_of_mem ?_
    intro a b ha _ hab
    have := hwf a ha
    unfold rle
    omega
  unfold merge_ranges sortRanges
  rw [hsorted.insertionSort_eq]
  cases out with
  | nil => exact absurd rfl hne
  | cons o0 rest =>
    simp only [List.foldl_cons]
    have h0 : mergeInto [o0] o0 = [o0] := by
      simp only [mergeInto]
      rw [if_pos ⟨le_refl _, hwf o0 (List.mem_cons_self o0 rest), le_refl _⟩]
    rw [h0, foldl_mergeInto_separated rest o0 [] hsep]
    simp

/-! ## Helper lemmas about the worst-severity fold -/

/-- The fold step of the builtin max: keep the current value unless the
next item is strictly greater. -/
def pickWorse (cur m : Level) : Level := if cur.ltb m then m else cur

theorem worstLevel_eq_foldl (x : Level) (xs : List Level) :
    worstLevel (x :: xs) = some (xs.foldl pickWorse x) := rfl

theorem foldl_pickWorse_spec :
    ∀ (xs : List Level) (a : Level),
      (xs.foldl pickWorse a ∈ a :: xs)
      ∧ a.index ≤ (xs.foldl pickWorse a).index
      ∧ ∀ y ∈ xs, y.index ≤ (xs.foldl pickWorse a).index
  | [], a => ⟨List.mem_cons_self a [], le_refl _, by simp⟩
  | x :: xs, a => by
    simp only [List.foldl_cons]
    have hstep : pickWorse a x = if a.index < x.index then x else a := by
      unfold pickWorse Level.ltb
      by_cases h : a.index < x.index
      · simp [h]
      · simp [h]
    by_cases h : a.index < x.index
    · rw [hstep, if_pos h]
      obtain ⟨h1, h2, h3⟩ := foldl_pickWorse_spec xs x
      refine ⟨?_, by omega, ?_⟩
      · rcases List.mem_cons.mp h1 with he | hm
        · rw [he]
          exact List.mem_cons_of_mem a (List.mem_cons_self _ xs)
        · exact List.mem_cons_of_mem a (List.mem_cons_of_mem x hm)
      · intro y hy
        rcases List.mem_cons.mp hy with rfl | hm
        · omega
        · exact h3 y hm
    · rw [hstep, if_neg h]
      obtain ⟨h1, h2, h3⟩ := foldl_pickWorse_spec xs a
      refine ⟨?_, h2, ?_⟩
      · rcases List.mem_cons.mp h1 with he | hm
        · rw [he]
          exact List.mem_cons_self _ _
        · exact List.mem_cons_of_mem a (List.mem_cons_of_mem x hm)
      · intro y hy
        rcases List.mem_cons.mp hy with rfl | hm
        · omega
        · exact h3 y hm

theorem worstLevel_is_max {l : List Level} {x : Level} (h : worstLevel l = some x) :
    x ∈ l ∧ ∀ y ∈ l, Level.ltb x y = false := by
  cases l with
  | nil => simp [worstLevel] at h
  | cons a xs =>
    rw [worstLevel_eq_foldl] at h
    injection h with h
    subst h
    obtain ⟨h1, h2, h3⟩ := foldl_pickWorse_spec xs a
    refine ⟨h1, ?_⟩
    intro y hy
    have hyi : y.index ≤ (xs.foldl pickWorse a).index := by
      rcases List.mem_cons.mp hy with rfl | hm
      · exact h2
      · exact h3 y hm
    unfold Level.ltb
    simp
    omega

/-! ## Replacement.get_range (C10) -/

/-- Replacement.get_range: read the two mark offsets and swap them if the
start offset has drifted past the end offset. -/
def get_range (start stop : Nat) : Nat × Nat :=
  if start > stop then (stop, start) else (start, stop)

/-- preview_fix collects one normalized range per replacement, in list
order, from the current offsets of the two marks of each replacement. -/
def inserted_ranges (marks : List (Nat × Nat)) : List (Nat × Nat) :=
  marks.map (fun p => get_range p.1 p.2)

/-! ## Claim theorems: severity ordering (C1) -/

/-- Claim C1, counterexample: UNKNOWN does not sort below NOTE (it sorts
above every other member, because it is declared last and the comparison
uses the member index), and a collection containing ERROR is out-ranked
by UNKNOWN. -/
theorem C1_cex :
    Level.ltb Level.UNKNOWN Level.NOTE = false ∧
    Level.ltb Level.NOTE Level.UNKNOWN = true ∧
    worstLevel [Level.ERROR, Level.UNKNOWN] = some Level.UNKNOWN := by
  decide

/-- Claim C1 as amended: the severity enumeration is totally ordered as
NOTE < INFO < WARN < ERROR < UNKNOWN, with UNKNOWN distinct from and
sorting above the other four; for every non-empty collection of levels
the worst severity picked is the maximum under this order, so the worst
of NOTE, INFO, ERROR is ERROR, but a set containing UNKNOWN out-ranks
ERROR. -/
theorem C1_amended :
    (Level.ltb Level.NOTE Level.INFO = true ∧
     Level.ltb Level.INFO Level.WARN = true ∧
     Level.ltb Level.WARN Level.ERROR = true ∧
     Level.ltb Level.ERROR Level.UNKNOWN = true)
  ∧ (∀ a b : Level, a ≠ b → (Level.ltb a b = true ↔ Level.ltb b a = false))
  ∧ (∀ (l : List Level) (x : Level), worstLevel l = some x →
      x ∈ l ∧ ∀ y ∈ l, Level.ltb x y = false)
  ∧ worstLevel [Level.INFO, Level.ERROR, Level.NOTE] = some Level.ERROR := by
  refine ⟨by decide, by decide, ?_, by decide⟩
  intro l x h
  exact worstLevel_is_max h

/-- Witness for C1: the amended theorem instantiated at the example
collection of the spec and at the NOTE and UNKNOWN pair. -/
theorem C1_witness :
    (Level.ERROR ∈ [Level.INFO, Level.ERROR, Level.NOTE]) ∧
    Level.ltb Level.ERROR Level.INFO = false ∧
    (Level.ltb Level.NOTE Level.UNKNOWN = true ↔
      Level.ltb Level.UNKNOWN Level.NOTE = false) := by
  have h := C1_amended.2.2.1 [Level.INFO, Level.ERROR, Level.NOTE] Level.ERROR (by decide)
  exact ⟨h.1, h.2 Level.INFO (by decide), C1_amended.2.1 Level.NOTE Level.UNKNOWN (by decide)⟩

/-! ## Claim theorems: range merger shape (C2) -/

/-- Claim C2, counterexample: on the nested input the merger does not
absorb the inner range into the outer one; the inner range is appended
unchanged and the output is not disjoint, hence not the minimal disjoint
cover. -/
theorem C2_cex :
    merge_ranges [((1 : Int), 10), (2, 5)] = some [(1, 10), (2, 5)] ∧
    ¬ List.Pairwise (fun a b : Int × Int => a.2 < b.1 ∨ b.2 < a.1)
        [((1 : Int), 10), (2, 5)] := by
  decide

/-- Claim C2 as amended: for every list of intervals on which the merger
is defined (non-empty input), the output covers exactly the same integer
point set as the input and is sorted by start offset, and
exactly-touching intervals are merged into one; but a fully nested
interval is appended unchanged rather than absorbed (the merge rule also
requires the candidate to end at or after the running interval), so the
output need not be disjoint or minimal. -/
theorem C2_amended :
    (∀ (l out : List (Int × Int)), merge_ranges l = some out →
      (∀ p : Int, covers out p ↔ covers l p) ∧ StartSorted out)
  ∧ merge_ranges [((5 : Int), 10), (10, 15), (20, 25)] = some [(5, 15), (20, 25)]
  ∧ merge_ranges [((1 : Int), 10), (2, 5)] = some [(1, 10), (2, 5)] := by
  exact ⟨fun l out h => ⟨merge_ranges_covers h, merge_ranges_startSorted h⟩,
    by decide, by decide⟩

/-- Witness for C2: the amended theorem instantiated at the touching
example of the spec, evaluated at the point 12 and at the sortedness of
the output. -/
theorem C2_witness :
    (covers [((5 : Int), 15), (20, 25)] 12 ↔
      covers [((5 : Int), 10), (10, 15), (20, 25)] 12) ∧
    StartSorted [((5 : Int), 15), (20, 25)] := by
  have h := C2_amended.1 [((5 : Int), 10), (10, 15), (20, 25)] [(5, 15), (20, 25)] (by decide)
  exact ⟨h.1 12, h.2⟩

/-! ## Claim theorems: debounce delay (C3) -/

/-- Claim C3, counterexample: a 4001-line buffer gets a 600 ms delay,
not 400 ms, and at exactly 2000 lines the computed delay is 400 ms while
the ceiling formula of the claim gives 200 ms. -/
theorem C3_cex :
    update_delay 4001 ≠ 400 ∧
    update_delay 2000 ≠ min 10000 (200 * ((2000 + 1999) / 2000)) := by
  decide

/-- Claim C3 as amended: the debounce delay equals
min(10000 ms, 200 ms × (floor(lineCount / 2000) + 1)); any buffer under
2000 lines gets exactly 200 ms, a 4001-line buffer gets exactly 600 ms,
and from 98000 lines on the delay is clamped to exactly 10000 ms. -/
theorem C3_amended :
    ∀ n : Nat,
      update_delay n = min 10000 (200 * (n / 2000 + 1))
      ∧ (n < 2000 → update_delay n = 200)
      ∧ update_delay 4001 = 600
      ∧ (98000 ≤ n → update_delay n = 10000) := by
  intro n
  refine ⟨rfl, ?_, by decide, ?_⟩
  · intro h
    unfold update_delay
    have : n / 2000 = 0 := Nat.div_eq_of_lt h
    rw [this]
    decide
  · intro h
    unfold update_delay
    have : 49 ≤ n / 2000 := Nat.le_div_iff_mul_le (by omega) |>.mpr (by omega)
    omega

/-- Witness for C3: the amended theorem instantiated at 100, 4001 and
100000 lines. -/
theorem C3_witness :
    update_delay 100 = 200 ∧ update_delay 4001 = 600 ∧ update_delay 100000 = 10000 :=
  ⟨(C3_amended 100).2.1 (by decide), (C3_amended 4001).2.2.1,
    (C3_amended 100000).2.2.2 (by decide)⟩

/-! ## Claim theorems: merger on empty input (C7) -/

/-- Claim C7, counterexample: on the empty list the merger fails
(indexing the first element of the empty sorted list raises IndexError,
modelled as none); it does not return the empty list. -/
theorem C7_cex : merge_ranges ([] : List (Int × Int)) = none := rfl

/-- Claim C7 as amended: the merger fails on the empty list and is total
on every non-empty list; in the program it is only invoked on non-empty
lists, because preview_fix returns before building ranges when the
replacement list is empty. -/
theorem C7_amended :
    merge_ranges ([] : List (Int × Int)) = none ∧
    ∀ l : List (Int × Int), l ≠ [] → (merge_ranges l).isSome = true := by
  refine ⟨rfl, fun l h => ?_⟩
  have hne : sortRanges l ≠ [] := by
    intro hnil
    have hperm : (sortRanges l).Perm l := List.perm_insertionSort rle l
    rw [hnil] at hperm
    exact h (hperm.nil_eq).symm
  unfold merge_ranges
  cases hs : sortRanges l with
  | nil => exact absurd hs hne
  | cons r0 rest => rfl

/-- Witness for C7: the amended theorem instantiated at the singleton
input of the spec example. -/
theorem C7_witness : (merge_ranges [((1 : Int), 3)]).isSome = true :=
  C7_amended.2 [((1 : Int), 3)] (by decide)

/-! ## Claim theorems: merger idempotence (C9) -/

/-- Claim C9, counterexample: the merger is not idempotent. On the input
whose sorted form is (1,10), (2,5), (3,20), the first pass keeps the
nested (2,5) but extends it with (3,20) to (2,20), giving
(1,10), (2,20); the second pass merges those two into (1,20). -/
theorem C9_cex :
    (merge_ranges [((1 : Int), 10), (2, 5), (3, 20)]).bind merge_ranges ≠
      merge_ranges [((1 : Int), 10), (2, 5), (3, 20)] := by
  decide

/-- Claim C9 as amended: the merger is idempotent on every input whose
first merge output is strictly separated (each output interval ends
strictly before the next begins) and well-formed; on such inputs,
including both spec examples, merging the output returns it unchanged. -/
theorem C9_amended :
    ∀ (l out : List (Int × Int)), merge_ranges l = some out →
      Separated out → (∀ r ∈ out, r.1 ≤ r.2) →
      (merge_ranges l).bind merge_ranges = merge_ranges l := by
  intro l out h hsep hwf
  rw [h]
  show merge_ranges out = some out
  exact merge_ranges_of_separated out (merge_ranges_ne_nil h) hsep hwf

/-- Witness for C9: the amended theorem instantiated at the touching
example of the spec, whose merge output (5,15), (20,25) is strictly
separated. -/
theorem C9_witness :
    (merge_ranges [((5 : Int), 10), (10, 15), (20, 25)]).bind merge_ranges =
      merge_ranges [((5 : Int), 10), (10, 15), (20, 25)] :=
  C9_amended [((5 : Int), 10), (10, 15), (20, 25)] [(5, 15), (20, 25)]
    (by decide) (List.chain'_pair.mpr (by norm_num)) (by decide)

/-! ## Claim theorems: normalized replacement ranges (C10) -/

/-- Claim C10, confirmed: get_range swaps the two tracked offsets when
sequential edits made them cross, so every recorded range has its start
at or before its end, and hence every range handed to the merger
satisfies the start-before-end precondition. -/
theorem C10_thm :
    (∀ start stop : Nat, (get_range start stop).1 ≤ (get_range start stop).2)
  ∧ (∀ marks : List (Nat × Nat), ∀ r ∈ inserted_ranges marks, r.1 ≤ r.2) := by
  constructor
  · intro start stop
    unfold get_range
    split <;> omega
  · intro marks r hr
    unfold inserted_ranges at hr
    obtain ⟨p, _, hmap⟩ := List.mem_map.mp hr
    subst hmap
    unfold get_range
    split <;> omega

/-- Witness for C10: the normalization at the crossed offsets 7 and 3,
and at a concrete list of mark offsets. -/
theorem C10_witness :
    (get_range 7 3).1 ≤ (get_range 7 3).2 ∧
    ((3 : Nat), (7 : Nat)) ∈ inserted_ranges [(7, 3)] ∧
    ((3 : Nat), (7 : Nat)).1 ≤ ((3 : Nat), (7 : Nat)).2 :=
  ⟨C10_thm.1 7 3, by decide, C10_thm.2 [(7, 3)] (3, 7) (by decide)⟩

/-! ## Tool-output parsing (ShellCheckViewActivatable.parse_shellcheck)

The Python function receives the accumulated output string and first runs
it through the JSON loader, catching only JSONDecodeError. The loader is
external library code, so its input is modelled post-loading: none for a
string that is not valid JSON (JSONDecodeError, caught), some value for a
string that parses. Every later access is uncaught: a missing comments
key raises KeyError, subscripting or iterating a value of the wrong shape
raises TypeError, and either ends the function without assigning the
snapshot field.
-/

/-- A parsed JSON value. -/
inductive Json where
  | null : Json
  | bool : Bool → Json
  | num : Int → Json
  | str : String → Json
  | arr : List Json → Json
  | obj : List (String × Json) → Json

/-- The uncaught exceptions that can escape parse_shellcheck. -/
inductive PyError where
  | keyError
  | typeError
deriving DecidableEq, Repr

/-- Subscripting a JSON value with a string key: on a JSON object a
missing key raises KeyError, on any other value TypeError. -/
def Json.getItem : Json → String → Except PyError Json
  | .obj fields, key =>
    match fields.find? (fun f => f.1 == key) with
    | some f => .ok f.2
    | none => .error .keyError
  | _, _ => .error .typeError

/-- Iterating a JSON value: a JSON array yields its items, a string its
characters, an object its keys; numbers, booleans and null are not
iterable (TypeError). -/
def Json.iterate : Json → Except PyError (List Json)
  | .arr xs => .ok xs
  | .str s => .ok (s.toList.map (fun c => Json.str (String.mk [c])))
  | .obj fields => .ok (fields.map (fun f => Json.str f.1))
  | _ => .error .typeError

/-- A comment record after the processing loop stored it a levelcls
value computed by Level.by_code from its level field. -/
structure TaggedComment where
  comment : Json
  levelcls : Level

/-- The level code of a comment: compared by equality against the member
code strings, so any non-string JSON value matches no member and falls
back to UNKNOWN. -/
def comment_level : Json → Level
  | .str s => Level.by_code s
  | _ => .UNKNOWN

/-- Processing of one element of the comments iterable: subscripting it
with the level key (TypeError unless it is an object, KeyError when the
key is absent), then tagging it with the mapped level. -/
def tag_comment (c : Json) : Except PyError TaggedComment :=
  match c.getItem "level" with
  | .ok lv => .ok ⟨c, comment_level lv⟩
  | .error e => .error e

/-- The diagnostic snapshot held in the context_data field. -/
def ContextData := List TaggedComment

/-- parse_shellcheck, given the result of the JSON loader: a load failure
was caught and the function returned without updating (ok none); any
shape error afterwards escapes as an exception (error); otherwise the
processed comments are the new snapshot (ok (some s)). -/
def parse_shellcheck (loaded : Option Json) : Except PyError (Option ContextData) :=
  match loaded with
  | none => .ok none
  | some data =>
    match data.getItem "comments" with
    | .error e => .error e
    | .ok comments =>
      match comments.iterate with
      | .error e => .error e
      | .ok items =>
        match items.mapM tag_comment with
        | .error e => .error e
        | .ok tagged => .ok (some tagged)

/-- The effect of one parse on the snapshot field: the field is assigned
only by the final statement of the function, so a caught load failure and
an escaped exception both leave the previous snapshot in place. -/
def parse_step (ctx : ContextData) (loaded : Option Json) : ContextData :=
  match parse_shellcheck loaded with
  | .ok (some new) => new
  | .ok none => ctx
  | .error _ => ctx

/-! ## Claim theorems: parser error handling (C4) -/

/-- Claim C4, counterexample: the string of an empty JSON object is valid
JSON, so the loader succeeds, but the subscript with the comments key
raises KeyError, which parse_shellcheck does not catch: an error escapes
the parser. -/
theorem C4_cex :
    parse_shellcheck (some (Json.obj [])) = .error .keyError := rfl

/-- Claim C4 as amended: malformed or non-JSON input never replaces the
snapshot and raises no error; input that is valid JSON but lacks the
expected structure raises an uncaught KeyError or TypeError while still
leaving the snapshot unchanged; only a successfully processed comments
collection replaces the snapshot wholesale, and the minimal valid input
(an object with an empty comments array) yields the empty snapshot. -/
theorem C4_amended :
    ∀ (ctx : ContextData) (loaded : Option Json),
      (loaded = none → parse_shellcheck loaded = .ok none ∧ parse_step ctx loaded = ctx)
      ∧ (∀ e, parse_shellcheck loaded = .error e → parse_step ctx loaded = ctx)
      ∧ (∀ new, parse_shellcheck loaded = .ok (some new) → parse_step ctx loaded = new)
      ∧ parse_shellcheck (some (Json.obj [("comments", Json.arr [])])) = .ok (some []) := by
  intro ctx loaded
  refine ⟨?_, ?_, ?_, rfl⟩
  · rintro rfl
    exact ⟨rfl, rfl⟩
  · intro e h
    unfold parse_step
    rw [h]
  · intro new h
    unfold parse_step
    rw [h]

/-- Witness for C4: a non-empty prior snapshot is untouched by a load
failure and by the escaped KeyError on an empty JSON object, and is
replaced by the empty snapshot on the minimal valid input. -/
theorem C4_witness :
    (parse_shellcheck none = .ok none ∧
      parse_step [⟨Json.null, Level.ERROR⟩] none = [⟨Json.null, Level.ERROR⟩]) ∧
    parse_step [⟨Json.null, Level.ERROR⟩] (some (Json.obj [])) = [⟨Json.null, Level.ERROR⟩] ∧
    parse_step [⟨Json.null, Level.ERROR⟩]
        (some (Json.obj [("comments", Json.arr [])])) = [] :=
  ⟨(C4_amended [⟨Json.null, Level.ERROR⟩] none).1 rfl,
   (C4_amended [⟨Json.null, Level.ERROR⟩] (some (Json.obj []))).2.1 PyError.keyError rfl,
   (C4_amended [⟨Json.null, Level.ERROR⟩] (some (Json.obj [("comments", Json.arr [])]))).2.2.1
     [] rfl⟩

/-! ## Check scheduler (ShellCheckViewActivatable)

The scheduler fields of the plugin object are modelled explicitly, and
the GLib main loop is modelled as an allocator of source ids together
with the sets of currently registered timeout and watch sources.
Source ids are allocated from 1 upward; the value 0 is the sentinel the
plugin stores for no pending source. The buffer object itself always
exists after activation, so only the properties the scheduler reads are
kept: language, location, parent folder, line count, and whether the
external tool can be spawned.
-/

/-- What the scheduler reads from the view, buffer and file location. -/
structure Env where
  language : Option String
  has_location : Bool
  has_parent : Bool
  n_lines : Nat
  shellcheck_available : Bool

/-- The GLib main loop: an id allocator plus the registered timeout
sources (with their delay) and the registered input watch sources. -/
structure GlibState where
  nextId : Nat
  liveTimeouts : List (Nat × Nat)
  liveWatches : List Nat
deriving DecidableEq, Repr

/-- The scheduler fields of the plugin object. context_data is the dict
(falsy when empty) that later holds the parsed comments list; location
and project_folder are kept as resolvability flags. -/
structure PluginState where
  connected : Bool
  update_timeout : Nat
  parse_signal : Nat
  context_data : ContextData
  has_location : Bool
  has_project_folder : Bool

/-- GLib.source_remove: deregister the source with the given id. -/
def source_remove (g : GlibState) (id : Nat) : GlibState :=
  { g with
    liveTimeouts := g.liveTimeouts.filter (fun t => t.1 ≠ id),
    liveWatches := g.liveWatches.filter (fun w => w ≠ id) }

/-- GLib.timeout_add: register a fresh timeout source with a delay. -/
def timeout_add (g : GlibState) (delay : Nat) : Nat × GlibState :=
  (g.nextId, { g with
    nextId := g.nextId + 1,
    liveTimeouts := (g.nextId, delay) :: g.liveTimeouts })

/-- GLib.io_add_watch: register a fresh input watch source. -/
def io_add_watch (g : GlibState) : Nat × GlibState :=
  (g.nextId, { g with
    nextId := g.nextId + 1,
    liveWatches := g.nextId :: g.liveWatches })

/-- Whether the buffer language id starts with sh (the startswith test
is taken on the character list of the id). -/
def langIsSh (env : Env) : Bool :=
  match env.language with
  | some lang => "sh".toList.isPrefixOf lang.toList
  | none => false

/-- should_check: a location is set and the language is a shell variant.
At every call site the location field has just been refreshed from the
file, so it is read from the environment. -/
def should_check (env : Env) : Bool := env.has_location && langIsSh env

/-- disconnect_gutter: when connected, remove the renderer and the
changed-signal handler. No GLib source is touched. -/
def disconnect_gutter (s : PluginState) : PluginState :=
  if s.connected = false then s else { s with connected := false }

/-- connect_gutter: when not yet connected, insert the renderer and the
changed-signal handler. -/
def connect_gutter (s : PluginState) : PluginState :=
  if s.connected = true then s else { s with connected := true }

/-- The tail of on_update_timeout, after the bookkeeping fields are
cleared: unless the project folder is missing or the external tool
cannot be spawned, start a check and register its output watch. -/
def spawn_check (env : Env) (s : PluginState) (g : GlibState) :
    PluginState × GlibState :=
  if s.has_project_folder = false then (s, g)
  else if env.shellcheck_available = false then (s, g)
  else ({ s with parse_signal := (io_add_watch g).1 }, (io_add_watch g).2)

/-- on_update_timeout: clear the timeout field, deregister a leftover
output watch when one is registered (writing 0 to an already-zero field
is the identity, so the field clearing is unconditional here), then
spawn the check. -/
def on_update_timeout (env : Env) (s : PluginState) (g : GlibState) :
    PluginState × GlibState :=
  spawn_check env { s with update_timeout := 0, parse_signal := 0 }
    (if s.parse_signal ≠ 0 then source_remove g s.parse_signal else g)

/-- The tail of update once it is not ignored: run the check immediately
when context_data is falsy, otherwise register a delayed timer sized by
the line count. -/
def update_body (env : Env) (s : PluginState) (g : GlibState) :
    PluginState × GlibState :=
  if s.context_data.isEmpty = true then on_update_timeout env s g
  else ({ s with update_timeout := (timeout_add g (update_delay env.n_lines)).1 },
        (timeout_add g (update_delay env.n_lines)).2)

/-- update: ignore when not connected or when a timer is already pending
(the delay does not accumulate); otherwise deregister a leftover output
watch and run the body. -/
def update (env : Env) (s : PluginState) (g : GlibState) : PluginState × GlibState :=
  if s.connected = false then (s, g)
  else if s.update_timeout ≠ 0 then (s, g)
  else
    update_body env { s with parse_signal := 0 }
      (if s.parse_signal ≠ 0 then source_remove g s.parse_signal else g)

/-- The location-update handler: refresh the location, detach when the
buffer should not be checked or the file has no parent folder, and
otherwise resolve the project folder, attach and update. -/
def update_location (env : Env) (s : PluginState) (g : GlibState) :
    PluginState × GlibState :=
  if should_check env = false then
    (disconnect_gutter { s with has_location := env.has_location }, g)
  else if env.has_parent = false then
    (disconnect_gutter { s with has_location := env.has_location }, g)
  else
    update env
      (connect_gutter
        { s with has_location := env.has_location, has_project_folder := true }) g

/-- on_notify_buffer: on a buffer switch, deregister a pending timeout
source (without resetting the stored timeout id) and a pending output
watch (resetting its id), reconnect the buffer signals and refresh the
location. -/
def on_notify_buffer (env : Env) (s : PluginState) (g : GlibState) :
    PluginState × GlibState :=
  update_location env { s with parse_signal := 0 }
    (if s.parse_signal ≠ 0 then
      source_remove (if s.update_timeout ≠ 0 then source_remove g s.update_timeout else g)
        s.parse_signal
    else if s.update_timeout ≠ 0 then source_remove g s.update_timeout else g)

/-! ## Helper lemmas about the scheduler -/

theorem source_remove_nextId (g : GlibState) (id : Nat) :
    (source_remove g id).nextId = g.nextId := rfl

theorem mem_timeouts_source_remove {g : GlibState} {id : Nat} {t : Nat × Nat} :
    t ∈ (source_remove g id).liveTimeouts ↔ t ∈ g.liveTimeouts ∧ t.1 ≠ id := by
  simp [source_remove]

theorem mem_watches_source_remove {g : GlibState} {id w : Nat} :
    w ∈ (source_remove g id).liveWatches ↔ w ∈ g.liveWatches ∧ w ≠ id := by
  simp [source_remove]

theorem update_not_connected {env : Env} {s : PluginState} {g : GlibState}
    (h : s.connected = false) : update env s g = (s, g) := by
  unfold update
  rw [if_pos h]

theorem update_blocked {env : Env} {s : PluginState} {g : GlibState}
    (h : s.update_timeout ≠ 0) : update env s g = (s, g) := by
  unfold update
  by_cases hc : s.connected = false
  · rw [if_pos hc]
  · rw [if_neg hc, if_pos h]

theorem spawn_check_timeout (env : Env) (s : PluginState) (g : GlibState) :
    (spawn_check env s g).1.update_timeout = s.update_timeout := by
  unfold spawn_check
  split
  · rfl
  · split <;> rfl

theorem spawn_check_timeouts (env : Env) (s : PluginState) (g : GlibState) :
    (spawn_check env s g).2.liveTimeouts = g.liveTimeouts := by
  unfold spawn_check
  split
  · rfl
  · split <;> rfl

theorem spawn_check_watches (env : Env) (s : PluginState) (g : GlibState) :
    ∀ w ∈ (spawn_check env s g).2.liveWatches, w = g.nextId ∨ w ∈ g.liveWatches := by
  unfold spawn_check
  split
  · exact fun w hw => Or.inr hw
  · split
    · exact fun w hw => Or.inr hw
    · intro w hw
      simp only [io_add_watch, List.mem_cons] at hw
      exact hw

theorem on_update_timeout_timeout (env : Env) (s : PluginState) (g : GlibState) :
    (on_update_timeout env s g).1.update_timeout = 0 := by
  unfold on_update_timeout
  rw [spawn_check_timeout]

theorem on_update_timeout_timeouts (env : Env) (s : PluginState) (g : GlibState) :
    ∀ t ∈ (on_update_timeout env s g).2.liveTimeouts, t ∈ g.liveTimeouts := by
  unfold on_update_timeout
  intro t ht
  rw [spawn_check_timeouts] at ht
  split at ht
  · exact (mem_timeouts_source_remove.mp ht).1
  · exact ht

theorem on_update_timeout_watches (env : Env) (s : PluginState) (g : GlibState) :
    ∀ w ∈ (on_update_timeout env s g).2.liveWatches,
      w = g.nextId ∨ w ∈ g.liveWatches := by
  unfold on_update_timeout
  intro w hw
  rcases spawn_check_watches env _ _ w hw with he | hm
  · left
    rw [he]
    split <;> rfl
  · right
    split at hm
    · exact (mem_watches_source_remove.mp hm).1
    · exact hm

theorem update_watches (env : Env) (s : PluginState) (g : GlibState) :
    ∀ w ∈ (update env s g).2.liveWatches, w = g.nextId ∨ w ∈ g.liveWatches := by
  unfold update
  split
  · exact fun w hw => Or.inr hw
  · split
    · exact fun w hw => Or.inr hw
    · intro w hw
      unfold update_body at hw
      split at hw
      · rcases on_update_timeout_watches env _ _ w hw with he | hm
        · left
          rw [he]
          split <;> rfl
        · right
          split at hm
          · exact (mem_watches_source_remove.mp hm).1
          · exact hm
      · simp only [timeout_add] at hw
        right
        split at hw
        · exact (mem_watches_source_remove.mp hw).1
        · exact hw

theorem update_location_glib_of_timeout {env : Env} {s : PluginState} {g : GlibState}
    (h : s.update_timeout ≠ 0) :
    (update_location env s g).2 = g ∧
    (update_location env s g).1.update_timeout = s.update_timeout ∧
    (update_location env s g).1.parse_signal = s.parse_signal := by
  unfold update_location
  split
  · exact ⟨rfl, by unfold disconnect_gutter; split <;> rfl,
      by unfold disconnect_gutter; split <;> rfl⟩
  · split
    · exact ⟨rfl, by unfold disconnect_gutter; split <;> rfl,
        by unfold disconnect_gutter; split <;> rfl⟩
    · rw [update_blocked (by unfold connect_gutter; split <;> exact h)]
      refine ⟨rfl, ?_, ?_⟩ <;> unfold connect_gutter <;> split <;> rfl

theorem update_location_watches (env : Env) (s : PluginState) (g : GlibState) :
    ∀ w ∈ (update_location env s g).2.liveWatches,
      w = g.nextId ∨ w ∈ g.liveWatches := by
  unfold update_location
  split
  · exact fun w hw => Or.inr hw
  · split
    · exact fun w hw => Or.inr hw
    · exact update_watches env _ g

/-! ## Concrete scheduler traces -/

/-- A shell buffer with a resolvable parent folder and the tool on the
search path. -/
def shEnv : Env := ⟨some "sh", true, true, 10, true⟩

/-- The same buffer after its language was switched to python. -/
def pyEnv : Env := ⟨some "python", true, true, 10, true⟩

/-- A fresh main loop. -/
def glib0 : GlibState := ⟨1, [], []⟩

/-- A freshly attached state: connected, no pending sources, empty
snapshot, location and project folder resolved. -/
def attached0 : PluginState := ⟨true, 0, 0, [], true, true⟩

/-- An attached quiescent state whose snapshot is non-empty. -/
def busyState : PluginState := ⟨true, 0, 0, [⟨Json.null, Level.ERROR⟩], true, true⟩

/-- First buffer-change notification after attach: the empty snapshot
makes the check run immediately (watch id 1 registered, no timer). -/
def firstCheck : PluginState × GlibState := update shEnv attached0 glib0

/-- The tool output of a clean script arrives and parses: the snapshot
is replaced by the empty comments list, the watch callback returns
false, so GLib removes the watch and the handler resets its id. -/
def afterParse : PluginState :=
  { firstCheck.1 with
    context_data := parse_step firstCheck.1.context_data
      (some (Json.obj [("comments", Json.arr [])])),
    parse_signal := 0 }

def afterParseGlib : GlibState := source_remove firstCheck.2 firstCheck.1.parse_signal

/-- A subsequent buffer-change notification, after the first check
completed and its snapshot was published. -/
def secondNotify : PluginState × GlibState := update shEnv afterParse afterParseGlib

/-- A buffer-change notification in the busy state schedules a timer
(id 1, delay 200 ms). -/
def pendingState : PluginState × GlibState := update shEnv busyState glib0

/-- The language of the buffer then stops being a shell variant, which
reaches the detach path of the location-update handler. -/
def afterLangChange : PluginState × GlibState :=
  update_location pyEnv pendingState.1 pendingState.2

/-! ## Claim theorems: zero-delay checks (C5) -/

/-- Claim C5, counterexample: after the first check already ran and its
parsed (empty) snapshot was published, a subsequent buffer-change
notification with no timer pending again fires immediately: no timer is
created and a new output watch (id 2) is registered synchronously. The
zero-delay path is taken whenever the snapshot is falsy, not only on the
very first check after (re)connection. -/
theorem C5_cex :
    secondNotify.1.update_timeout = 0 ∧
    secondNotify.2.liveTimeouts = [] ∧
    secondNotify.1.parse_signal = 2 ∧
    secondNotify.2.liveWatches = [2] :=
  ⟨rfl, rfl, rfl, rfl⟩

/-- Claim C5 as amended: for a connected buffer with no pending timer, a
buffer-change notification fires the check immediately with zero delay
exactly when the current diagnostic snapshot is empty (which covers the
very first check after (re)connection, but also every check while the
last parse produced no comments); when the snapshot is non-empty it
schedules a delayed check through the pending-timer state, with delay
computed from the line count, and does not register any output watch
synchronously. -/
theorem C5_amended :
    ∀ (env : Env) (s : PluginState) (g : GlibState),
      s.connected = true → s.update_timeout = 0 →
      (s.context_data.isEmpty = true →
        (update env s g).1.update_timeout = 0 ∧
        ∀ t ∈ (update env s g).2.liveTimeouts, t ∈ g.liveTimeouts) ∧
      (s.context_data.isEmpty = false →
        (update env s g).1.update_timeout = g.nextId ∧
        (g.nextId, update_delay env.n_lines) ∈ (update env s g).2.liveTimeouts ∧
        ∀ w ∈ (update env s g).2.liveWatches, w ∈ g.liveWatches) := by
  intro env s g hc ht
  have hrw : update env s g = update_body env { s with parse_signal := 0 }
      (if s.parse_signal ≠ 0 then source_remove g s.parse_signal else g) := by
    unfold update
    rw [if_neg (by simp [hc]), if_neg (by simp [ht])]
  constructor
  · intro hempty
    rw [hrw]
    unfold update_body
    rw [if_pos hempty]
    refine ⟨on_update_timeout_timeout _ _ _, ?_⟩
    intro t htm
    have hin := on_update_timeout_timeouts env _ _ t htm
    split at hin
    · exact (mem_timeouts_source_remove.mp hin).1
    · exact hin
  · intro hne
    rw [hrw]
    unfold update_body
    rw [if_neg (by simp [show ({ s with parse_signal := 0 } :
      PluginState).context_data.isEmpty = false from hne])]
    by_cases hp : s.parse_signal ≠ 0
    · rw [if_pos hp]
      refine ⟨rfl, List.mem_cons_self _ _, ?_⟩
      intro w hw
      exact (mem_watches_source_remove.mp hw).1
    · rw [if_neg hp]
      exact ⟨rfl, List.mem_cons_self _ _, fun w hw => hw⟩

/-- Witness for C5: the amended theorem instantiated at the busy state,
where the notification schedules timer id 1 with the 200 ms delay. -/
theorem C5_witness :
    (update shEnv busyState glib0).1.update_timeout = glib0.nextId ∧
    (glib0.nextId, update_delay shEnv.n_lines) ∈
      (update shEnv busyState glib0).2.liveTimeouts :=
  ⟨((C5_amended shEnv busyState glib0 rfl rfl).2 rfl).1,
   ((C5_amended shEnv busyState glib0 rfl rfl).2 rfl).2.1⟩

/-! ## Claim theorems: detach bookkeeping (C6) -/

/-- Claim C6, counterexample: with a timer pending (id 1, 200 ms), the
detach caused by the language ceasing to be a shell variant goes through
the location-update handler and disconnect_gutter, which cancel nothing:
after the detach the buffer is disconnected but the timer source is
still registered and can still fire. -/
theorem C6_cex :
    pendingState.1.update_timeout = 1 ∧
    ((1 : Nat), (200 : Nat)) ∈ pendingState.2.liveTimeouts ∧
    afterLangChange.1.connected = false ∧
    afterLangChange.1.update_timeout = 1 ∧
    ((1 : Nat), (200 : Nat)) ∈ afterLangChange.2.liveTimeouts := by
  refine ⟨rfl, ?_, rfl, rfl, ?_⟩ <;> decide

/-- Claim C6 as amended: only the buffer-switch detach path cancels
bookkeeping: on_notify_buffer deregisters the pending timeout source and
the pending output watch (the watch id cannot be re-used by the handler
it triggers when it differs from the next fresh id). The detach paths
through the location-update handler, taken when the language stops being
a shell variant or when the file has no parent folder, leave the main
loop untouched: any pending timer and in-flight watch stay registered
and the stored ids are kept. -/
theorem C6_amended :
    ∀ (env : Env) (s : PluginState) (g : GlibState),
      (s.update_timeout ≠ 0 →
        ∀ d, (s.update_timeout, d) ∉ (on_notify_buffer env s g).2.liveTimeouts)
      ∧ (s.parse_signal ≠ 0 → s.parse_signal ≠ g.nextId →
        s.parse_signal ∉ (on_notify_buffer env s g).2.liveWatches)
      ∧ (should_check env = false →
        (update_location env s g).2 = g ∧
        (update_location env s g).1.update_timeout = s.update_timeout ∧
        (update_location env s g).1.parse_signal = s.parse_signal)
      ∧ (env.has_parent = false →
        (update_location env s g).2 = g ∧
        (update_location env s g).1.update_timeout = s.update_timeout) := by
  intro env s g
  refine ⟨?_, ?_, ?_, ?_⟩
  · intro hut d hmem
    unfold on_notify_buffer at hmem
    rw [(update_location_glib_of_timeout
      (show ({ s with parse_signal := 0 } : PluginState).update_timeout ≠ 0 from hut)).1]
      at hmem
    by_cases hp : s.parse_signal ≠ 0
    · rw [if_pos hp, if_pos hut] at hmem
      exact (mem_timeouts_source_remove.mp (mem_timeouts_source_remove.mp hmem).1).2 rfl
    · rw [if_neg hp, if_pos hut] at hmem
      exact (mem_timeouts_source_remove.mp hmem).2 rfl
  · intro hp hne hmem
    unfold on_notify_buffer at hmem
    rw [if_pos hp] at hmem
    by_cases hut : s.update_timeout ≠ 0
    · rw [(update_location_glib_of_timeout
        (show ({ s with parse_signal := 0 } : PluginState).update_timeout ≠ 0 from hut)).1]
        at hmem
      exact (mem_watches_source_remove.mp hmem).2 rfl
    · rw [if_neg hut] at hmem
      rcases update_location_watches env _ _ _ hmem with he | hm
      · exact hne (he.trans (source_remove_nextId g _))
      · exact (mem_watches_source_remove.mp hm).2 rfl
  · intro hsc
    unfold update_location
    rw [if_pos hsc]
    exact ⟨rfl, by unfold disconnect_gutter; split <;> rfl,
      by unfold disconnect_gutter; split <;> rfl⟩
  · intro hpar
    unfold update_location
    by_cases hsc : should_check env = false
    · rw [if_pos hsc]
      exact ⟨rfl, by unfold disconnect_gutter; split <;> rfl⟩
    · rw [if_neg hsc, if_pos hpar]
      exact ⟨rfl, by unfold disconnect_gutter; split <;> rfl⟩

/-- Witness for C6: the amended theorem instantiated at the pending
state: a buffer switch deregisters timer id 1, while the language-change
detach leaves the main loop untouched. -/
theorem C6_witness :
    ((1 : Nat), (200 : Nat)) ∉
      (on_notify_buffer pyEnv pendingState.1 pendingState.2).2.liveTimeouts ∧
    (update_location pyEnv pendingState.1 pendingState.2).2 = pendingState.2 :=
  ⟨by
    have h := (C6_amended pyEnv pendingState.1 pendingState.2).1 (by decide) 200
    exact h,
   ((C6_amended pyEnv pendingState.1 pendingState.2).2.2.1 (by decide)).1⟩

/-! ## Inline-error preview (GutterRenderer.preview_note)

The buffer text is a list of characters; Gtk iterators are character
offsets. get_iter_at_line returns the offset of the start of a 0-indexed
line and clamps to the end of the buffer past the last line;
get_iter_at_line_offset adds a character offset within the line, clamped
to the buffer end; get_text extracts the characters between two offsets.
-/

/-- Offset of the start of the given 0-indexed line: the position after
that many newline characters, clamped to the end of the buffer. -/
def get_iter_at_line : List Char → Nat → Nat
  | _, 0 => 0
  | [], _ + 1 => 0
  | c :: rest, n + 1 =>
    if c = '\n' then 1 + get_iter_at_line rest n
    else 1 + get_iter_at_line rest (n + 1)

/-- Offset of a character position within a line. -/
def get_iter_at_line_offset (s : List Char) (line off : Nat) : Nat :=
  min (get_iter_at_line s line + off) s.length

/-- The text between two offsets. -/
def get_text (s : List Char) (a b : Nat) : List Char := (s.take b).drop a

/-- Strip trailing newline characters, as the rstrip call does. -/
def rstripNewline (s : List Char) : List Char :=
  (s.reverse.dropWhile (fun c => c = '\n')).reverse

/-- The span fields of one diagnostic record, 1-indexed as in the tool
output. -/
structure Msg where
  line : Nat
  column : Nat
  endLine : Nat
  endColumn : Nat

/-- The span start iterator of preview_note. -/
def note_start (s : List Char) (m : Msg) : Nat :=
  get_iter_at_line_offset s (m.line - 1) (m.column - 1)

/-- The span end iterator of preview_note. -/
def note_end (s : List Char) (m : Msg) : Nat :=
  get_iter_at_line_offset s (m.endLine - 1) (m.endColumn - 1)

/-- The start of the line holding the span start. -/
def line_start (s : List Char) (m : Msg) : Nat := get_iter_at_line s (m.line - 1)

/-- The iterator bounding the rendered text: the start of the line AFTER
the 1-indexed end line of the span (0-indexed argument endLine). -/
def line_end (s : List Char) (m : Msg) : Nat := get_iter_at_line s m.endLine

/-- preview_note: the prefix before the span, the erroring span itself,
and the suffix up to the end of the span end line with trailing newlines
stripped. -/
def preview_note (s : List Char) (m : Msg) : List Char × List Char × List Char :=
  (get_text s (line_start s m) (note_start s m),
   get_text s (note_start s m) (note_end s m),
   rstripNewline (get_text s (note_end s m) (line_end s m)))

/-- Adjacent text slices concatenate to the enclosing slice. -/
theorem get_text_append {s : List Char} {a b c : Nat} (hab : a ≤ b) (hbc : b ≤ c) :
    get_text s a b ++ get_text s b c = get_text s a c := by
  unfold get_text
  rw [List.drop_take, List.drop_take, List.drop_take]
  have h1 : c - a = (b - a) + (c - b) := by omega
  rw [h1, List.take_add, List.drop_drop]
  have h2 : a + (b - a) = b := by omega
  rw [h2]

/-! ## Claim theorems: inline-error preview (C8) -/

/-- Claim C8, counterexample: for the buffer holding two lines ab and cd
and a diagnostic spanning from line 1 column 1 to line 2 column 2, the
rendered preview is both lines, with the erroring piece running across
the line break; it is not the single line containing the start, and the
highlighted span is not clipped to that line. -/
theorem C8_cex :
    (preview_note "ab\ncd\n".toList ⟨1, 1, 2, 2⟩).1 ++
      (preview_note "ab\ncd\n".toList ⟨1, 1, 2, 2⟩).2.1 ++
      (preview_note "ab\ncd\n".toList ⟨1, 1, 2, 2⟩).2.2 = "ab\ncd".toList ∧
    (preview_note "ab\ncd\n".toList ⟨1, 1, 2, 2⟩).2.1 = "ab\nc".toList ∧
    "ab\ncd".toList ≠ "ab".toList := by
  decide

/-- Claim C8 as amended: the preview renders the buffer from the start
of the line containing the diagnostic start through the end of the line
containing the diagnostic end (trailing newlines stripped from the
suffix), split into prefix, the diagnostic span itself (taken in full
from the diagnostic fields, not from the fix, and not clipped to one
line), and suffix; for a single-line diagnostic this is exactly the
single line containing the start. -/
theorem C8_amended :
    ∀ (s : List Char) (m : Msg),
      line_start s m ≤ note_start s m →
      note_start s m ≤ note_end s m →
      note_end s m ≤ line_end s m →
      ((preview_note s m).1 ++ (preview_note s m).2.1 ++
          get_text s (note_end s m) (line_end s m) =
        get_text s (line_start s m) (line_end s m))
      ∧ (preview_note s m).2.1 = get_text s (note_start s m) (note_end s m)
      ∧ (preview_note s m).2.2 = rstripNewline (get_text s (note_end s m) (line_end s m))
      ∧ line_end s m = get_iter_at_line s m.endLine := by
  intro s m h1 h2 h3
  refine ⟨?_, rfl, rfl, rfl⟩
  show (get_text s (line_start s m) (note_start s m) ++
      get_text s (note_start s m) (note_end s m)) ++
        get_text s (note_end s m) (line_end s m) =
      get_text s (line_start s m) (line_end s m)
  rw [get_text_append h1 h2, get_text_append (le_trans h1 h2) h3]

/-- Witness for C8: the amended theorem instantiated at the two-line
buffer and the multi-line diagnostic of the counterexample. -/
theorem C8_witness :
    (preview_note "ab\ncd\n".toList ⟨1, 1, 2, 2⟩).1 ++
      (preview_note "ab\ncd\n".toList ⟨1, 1, 2, 2⟩).2.1 ++
      get_text "ab\ncd\n".toList (note_end "ab\ncd\n".toList ⟨1, 1, 2, 2⟩)
        (line_end "ab\ncd\n".toList ⟨1, 1, 2, 2⟩) =
      get_text "ab\ncd\n".toList (line_start "ab\ncd\n".toList ⟨1, 1, 2, 2⟩)
        (line_end "ab\ncd\n".toList ⟨1, 1, 2, 2⟩) :=
  (C8_amended "ab\ncd\n".toList ⟨1, 1, 2, 2⟩ (by decide) (by decide) (by decide)).1
